import Mathlib

/-
Verification development for the AWS resource collection script
(AWS_Resource_list.py).  The script's data reshaping and rendering logic is
embedded shallowly: row dictionaries become ordered association lists, the
reformat and expand_listeners_with_condensed_fields transforms and the
print_table renderer become pure functions, Python exceptions become Option
results, the per-region control flow of main becomes an event trace, and the
json.dump serialization hook becomes a recursive function on a Python-value
tree.  Theorems at the end settle the specification claims.
-/

namespace AWS

/-- Values occurring in the row dictionaries the collectors build: strings,
integers (for example EBS sizes or listener ports), booleans (for example
MultiAZ), and lists of strings (for example attached EBS volume ids,
security group ids, or target instance names). -/
inductive Value where
  | str (s : String)
  | int (n : Int)
  | bool (b : Bool)
  | vlist (elems : List String)
deriving DecidableEq

/-- A row dictionary: an ordered association list from field name to value.
Python dicts preserve insertion order and have unique keys. -/
abbrev Record := List (String × Value)

/-- Dictionary lookup: the first binding of the key, if present. -/
def lookupKey : Record → String → Option Value
  | [], _ => none
  | p :: ps, k => if p.1 = k then some p.2 else lookupKey ps k

/-- Assignment to a key that is already present: the value is replaced in
place, so the key order of the dict is unchanged. -/
def setKey (r : Record) (k : String) (v : Value) : Record :=
  r.map (fun p => if p.1 = k then (p.1, v) else p)

/-- The keys of a row dictionary in order (list(d.keys())). -/
def keysOf (r : Record) : List String := r.map (fun p => p.1)

/-- Python str.join: concatenation with a separator between elements. -/
def joinSep (sep : String) : List String → String
  | [] => ""
  | [x] => x
  | x :: y :: xs => x ++ sep ++ joinSep sep (y :: xs)

/-- A single-quote character as a string (used by the Python repr of a
string inside a printed list). -/
def sq : String := String.mk [Char.ofNat 39]

/-- Python str() of a cell value, as print_table applies it: strings are
unchanged, integers and booleans print the Python way, and a list prints as
its repr with quoted elements (elements without quotes or escapes, which is
all this program produces). -/
def pyStr : Value → String
  | .str s => s
  | .int n => toString n
  | .bool b => if b then "True" else "False"
  | .vlist es => "[" ++ joinSep ", " (es.map (fun e => sq ++ e ++ sq)) ++ "]"

/- ------------------------------------------------------------------
reformat (AWS_Resource_list.py lines 76-104)
------------------------------------------------------------------ -/

/-- A continuation row built by reformat for the second and later list
elements: the key field carries the element, "Name" is kept, every other
field becomes the empty string. -/
def blankRow (item : Record) (key : String) (v : String) : Record :=
  item.map (fun p =>
    if p.1 = key then (p.1, Value.str v)
    else if p.1 = "Name" then p
    else (p.1, Value.str ""))

/-- One loop iteration of reformat.  An empty list hits list_items[0] in the
source and raises IndexError, modeled as none.  A key that is absent or not
a list passes the item through. -/
def reformatItem (key : String) (item : Record) : Option (List Record) :=
  match lookupKey item key with
  | some (Value.vlist [v]) => some [setKey item key (Value.str v)]
  | some (Value.vlist (first :: rest)) =>
      some (setKey item key (Value.str first) :: rest.map (fun v => blankRow item key v))
  | some (Value.vlist []) => none
  | _ => some [item]

/-- reformat: flattens the list stored under key into one row per element,
accumulating over the input rows; an IndexError anywhere aborts the call. -/
def reformat (data : List Record) (key : String) : Option (List Record) :=
  match data with
  | [] => some []
  | item :: rest =>
      match reformatItem key item, reformat rest key with
      | some rows, some tail => some (rows ++ tail)
      | _, _ => none

/- ------------------------------------------------------------------
expand_listeners_with_condensed_fields (lines 175-215)
------------------------------------------------------------------ -/

/-- A listener entry as collect_lb_resources builds it. -/
structure Listener where
  port : Int
  protocol : String
  action : String
deriving DecidableEq

/-- A load balancer row as collect_lb_resources builds it. -/
structure LoadBalancer where
  name : Value
  lbType : Value
  scheme : Value
  vpc : Value
  securityGroups : Value
  listener : List Listener
deriving DecidableEq

/-- The condensed listener cell text (an f-string in the source). -/
def listenerStr (l : Listener) : String :=
  "Port: " ++ toString l.port ++ ", Protocol: " ++ l.protocol ++ ", Action: " ++ l.action

/-- The rows emitted for one load balancer: enumerate over the listeners,
index 0 keeps the base fields, later indices keep only "Name". -/
def expandRows (lb : LoadBalancer) : List Record :=
  lb.listener.enum.map (fun p =>
    if p.1 = 0 then
      [("Name", lb.name), ("Type", lb.lbType), ("Scheme", lb.scheme), ("Vpc", lb.vpc),
       ("SecurityGroups", lb.securityGroups), ("Listener", Value.str (listenerStr p.2))]
    else
      [("Name", lb.name), ("Type", Value.str ""), ("Scheme", Value.str ""),
       ("Vpc", Value.str ""), ("SecurityGroups", Value.str ""),
       ("Listener", Value.str (listenerStr p.2))])

def expand_listeners_with_condensed_fields (lbs : List LoadBalancer) : List Record :=
  lbs.flatMap expandRows

/- ------------------------------------------------------------------
Claim-side descriptions of the two flattening transforms, written from the
specification text: one output row per list element, the first row is the
record with the key field replaced by the first element, each continuation
row carries the next element, repeats "Name" and blanks every other field.
------------------------------------------------------------------ -/

def claimContinuationRow (item : Record) (key : String) (v : String) : Record :=
  item.map (fun p =>
    if p.1 = key then (p.1, Value.str v)
    else if p.1 = "Name" then p
    else (p.1, Value.str ""))

def claimReformat (data : List Record) (key : String) : List Record :=
  data.flatMap (fun item =>
    match lookupKey item key with
    | some (Value.vlist []) => []
    | some (Value.vlist (first :: rest)) =>
        setKey item key (Value.str first) :: rest.map (fun v => claimContinuationRow item key v)
    | _ => [item])

def claimExpandRows (lb : LoadBalancer) : List Record :=
  match lb.listener with
  | [] => []
  | first :: rest =>
      [("Name", lb.name), ("Type", lb.lbType), ("Scheme", lb.scheme), ("Vpc", lb.vpc),
       ("SecurityGroups", lb.securityGroups), ("Listener", Value.str (listenerStr first))]
        :: rest.map (fun lsn =>
          [("Name", lb.name), ("Type", Value.str ""), ("Scheme", Value.str ""),
           ("Vpc", Value.str ""), ("SecurityGroups", Value.str ""),
           ("Listener", Value.str (listenerStr lsn))])

def claimExpand (lbs : List LoadBalancer) : List Record :=
  lbs.flatMap claimExpandRows

/- ------------------------------------------------------------------
print_table (lines 107-162)
------------------------------------------------------------------ -/

/-- Python string comparison: lexicographic on code points.  (Lean's own
String order is not kernel-computable, so the comparison is embedded
directly on the character lists.) -/
def charsLE : List Char → List Char → Bool
  | [], _ => true
  | _ :: _, [] => false
  | a :: as, b :: bs => if a < b then true else if a = b then charsLE as bs else false

def strLE (a b : String) : Bool := charsLE a.data b.data

/-- The sort key of a row; print_table only reaches the sort when every row
holds a string there (sortOK below). -/
def keyStrOf (k : String) (r : Record) : String :=
  match lookupKey r k with
  | some (Value.str s) => s
  | _ => ""

/-- Whether a row can be sorted on column k.  Python's sorted raises
KeyError when a row lacks the key; the program only sorts columns holding
strings ("vpc", "AttchedVPC"), which is what the model supports. -/
def recOK (k : String) (r : Record) : Bool :=
  match lookupKey r k with
  | some (Value.str _) => true
  | _ => false

def sortOK (data : List Record) (k : String) : Bool := data.all (recOK k)

/-- The sort step of print_table.  Python's "if sortKey:" is false for None
and for the empty string, so those skip the sort; otherwise
sorted(data, key=lambda x: x[sortKey]) is a stable nondecreasing sort, here
insertion sort, which is stable and errors (none) when a row cannot supply
a string key. -/
def sortStep (data : List Record) (sortKey : Option String) : Option (List Record) :=
  match sortKey with
  | none => some data
  | some k =>
      if k = "" then some data
      else if sortOK data k then
        some (List.insertionSort (fun a b => strLE (keyStrOf k a) (keyStrOf k b) = true) data)
      else none

/-- str(row.get(header, "")). -/
def cellStr (r : Record) (h : String) : String := pyStr ((lookupKey r h).getD (Value.str ""))

/-- headers = list(data[0].keys()), taken from the data after the sort. -/
def headersOf (tdata : List Record) : List String := keysOf (tdata.headD [])

/-- col_widths[header]: start from len(header), then max over all rows of
len(str(row.get(header, ""))). -/
def colWidth (tdata : List Record) (h : String) : Nat :=
  tdata.foldl (fun acc row => max acc (cellStr row h).length) h.length

/-- Left-justified padding to a field width, as f-string formatting does for
strings (no truncation when the content is wider). -/
def padTo (s : String) (w : Nat) : String := s ++ String.mk (List.replicate (w - s.length) ' ')

/-- The horizontal separator line. -/
def sepLine (tdata : List Record) : String :=
  "+" ++ joinSep "+"
    ((headersOf tdata).map (fun h => String.mk (List.replicate (colWidth tdata h + 2) '-'))) ++ "+"

/-- The header row. -/
def headerLine (tdata : List Record) : String :=
  "| " ++ joinSep " | " ((headersOf tdata).map (fun h => padTo h (colWidth tdata h))) ++ " |"

/-- A data row assembled from already-stringified cells, each padded to its
column width (the cells are zipped against the headers). -/
def renderRowLine (tdata : List Record) (hs : List String) (cells : List String) : String :=
  "| " ++ joinSep " | " ((cells.zip hs).map (fun p => padTo p.1 (colWidth tdata p.2))) ++ " |"

/-- row.get(headers[0], ""): the raw first-column value used for merging. -/
def firstColVal (hs : List String) (r : Record) : Value :=
  (lookupKey r (hs.headD "")).getD (Value.str "")

/-- The data-row loop of print_table, carrying prev_vpc (initially None):
a row whose first-column value equals the previous one is printed with a
blanked first cell, otherwise a separator is printed before the full row. -/
def dataLines (tdata : List Record) (hs : List String) : List Record → Option Value → List String
  | [], _ => []
  | row :: rest, prev =>
      if some (firstColVal hs row) = prev then
        renderRowLine tdata hs ("" :: hs.tail.map (fun h => cellStr row h))
          :: dataLines tdata hs rest (some (firstColVal hs row))
      else
        sepLine tdata
          :: renderRowLine tdata hs (hs.map (fun h => cellStr row h))
          :: dataLines tdata hs rest (some (firstColVal hs row))

/-- All lines print_table emits on the non-empty path. -/
def tableLines (tdata : List Record) : List String :=
  (sepLine tdata :: headerLine tdata :: dataLines tdata (headersOf tdata) tdata none)
    ++ [sepLine tdata]

/-- print_table as a function from the data and sortKey to the printed
lines.  none models an uncaught Python exception: a failing sort (KeyError)
or headers[0] on an empty first record (IndexError). -/
def print_table (data : List Record) (sortKey : Option String) : Option (List String) :=
  if data.isEmpty then some ["No data available to display."]
  else
    match sortStep data sortKey with
    | none => none
    | some tdata =>
        if (headersOf tdata).isEmpty then none
        else some (tableLines tdata)

/- ------------------------------------------------------------------
Claim-side descriptions of the print_table properties.
------------------------------------------------------------------ -/

/-- Column-width property from the claims: the columns are the keys of the
first displayed record; every column width bounds the header length and
every cell of the column over the whole input (a missing value counting as
the empty string) and is attained by the header or by some input cell; and
every rendered cell, padded, has exactly the column width. -/
def widthClaim (data tdata : List Record) : Prop :=
  headersOf tdata = keysOf (tdata.headD []) ∧
  (∀ h : String,
    h.length ≤ colWidth tdata h ∧
    (∀ r ∈ data, (cellStr r h).length ≤ colWidth tdata h) ∧
    (colWidth tdata h = h.length ∨ ∃ r ∈ data, colWidth tdata h = (cellStr r h).length)) ∧
  (∀ r ∈ tdata, ∀ h : String,
    (padTo (cellStr r h) (colWidth tdata h)).length = colWidth tdata h) ∧
  (∀ h : String, (padTo h (colWidth tdata h)).length = colWidth tdata h)

/-- Row-merging property from the claims: pairing every displayed row with
its predecessor (none for the first row), a row whose first-column value
equals its predecessor's is rendered with a blanked first cell and no
separator, and a row whose first-column value differs is preceded by a
separator and rendered in full. -/
def mergeClaim (tdata : List Record) : Prop :=
  dataLines tdata (headersOf tdata) tdata none =
    (tdata.zip (none :: tdata.map (fun r => some (firstColVal (headersOf tdata) r)))).flatMap
      (fun p =>
        if some (firstColVal (headersOf tdata) p.1) = p.2 then
          [renderRowLine tdata (headersOf tdata)
            ("" :: (headersOf tdata).tail.map (fun h => cellStr p.1 h))]
        else
          [sepLine tdata,
           renderRowLine tdata (headersOf tdata)
             ((headersOf tdata).map (fun h => cellStr p.1 h))])

/-- Sorting property from the claims: the displayed rows are a permutation
of the input, nondecreasing in the sortKey values, and stable: the rows
with any fixed sortKey value appear exactly in their input order. -/
def sortClaim (data : List Record) (k : String) (tdata : List Record) : Prop :=
  List.Perm tdata data ∧
  tdata.Pairwise (fun a b => strLE (keyStrOf k a) (keyStrOf k b) = true) ∧
  ∀ v : String,
    tdata.filter (fun r => keyStrOf k r == v) = data.filter (fun r => keyStrOf k r == v)

/- ------------------------------------------------------------------
Sentinel fallbacks in the collectors (lines 222-247 and 308-327)
------------------------------------------------------------------ -/

/-- next((tag["Value"] for tag in tags if tag["Key"] == "Name"), "N/A"). -/
def nameFromTags : List (String × String) → String
  | [] => "N/A"
  | t :: ts => if t.1 = "Name" then t.2 else nameFromTags ts

/-- An EC2 instance as far as the tag lookup is concerned. -/
structure Ec2Inst where
  tags : List (String × String)
deriving DecidableEq

/-- One reservation of a describe_instances response. -/
structure Reservation where
  instances : List Ec2Inst
deriving DecidableEq

/-- All tags of all instances of all reservations, in generator order. -/
def allTags (rs : List Reservation) : List (String × String) :=
  rs.flatMap (fun r => r.instances.flatMap (fun i => i.tags))

/-- The first Name tag over the whole describe_instances response,
defaulting to "N/A". -/
def nameFromReservations (rs : List Reservation) : String := nameFromTags (allTags rs)

/-- The target-name resolution of collect_lb_resources: a missing target id
defaults to "N/A"; a raising describe_instances call (modeled as none) is
caught and yields "N/A"; otherwise the first Name tag or "N/A". -/
def targetName (targetId : Option String) (described : Option (List Reservation)) : String :=
  let instanceId := targetId.getD "N/A"
  if instanceId = "N/A" then "N/A"
  else
    match described with
    | none => "N/A"
    | some rs => nameFromReservations rs

/- ------------------------------------------------------------------
The command-line surface and the output artifacts (lines 485-527)
------------------------------------------------------------------ -/

/-- One registered argparse flag: its option strings and help text. -/
structure CliFlag where
  options : List String
  helpText : String
deriving DecidableEq

/-- The three add_argument calls of main. -/
def cliFlags : List CliFlag :=
  [⟨["-l"], "List all AWS regions"⟩,
   ⟨["-r"], "Specify region indices or names to list resources"⟩,
   ⟨["-v", "--version"], "Show version information"⟩]

/-- Whether the character list pat occurs at the start of the second list. -/
def beginsWith : List Char → List Char → Bool
  | [], _ => true
  | _ :: _, [] => false
  | a :: as, b :: bs => a = b && beginsWith as bs

/-- Whether the character list pat occurs contiguously anywhere. -/
def containsChars (pat : List Char) : List Char → Bool
  | [] => pat.isEmpty
  | c :: cs => beginsWith pat (c :: cs) || containsChars pat cs

def containsStr (hay pat : String) : Bool := containsChars pat.data hay.data

/-- A flag counts as a topology-drawing flag when its help text mentions
topology or an option string mentions topo, graph or draw. -/
def isTopologyFlag (f : CliFlag) : Bool :=
  containsStr f.helpText "topolog" ||
    f.options.any (fun o =>
      containsStr o "topo" || containsStr o "graph" || containsStr o "draw")

/-- The kinds of output artifact a run can produce. -/
inductive OutputArtifact where
  | logFile
  | rawJsonDump
  | topologyImage
deriving DecidableEq

/-- What main actually writes: the tee'd log file and the raw JSON dump. -/
def mainArtifacts : List OutputArtifact := [.logFile, .rawJsonDump]

/-- The parsed argparse namespace plus len(sys.argv). -/
structure CliArgs where
  listFlag : Bool
  regions : Option (List String)
  versionFlag : Bool
  argc : Nat
deriving DecidableEq

inductive MainAction where
  | showVersion
  | printHelp
  | listRegions
  | collectAndSave (regions : List String)
  | fallThrough
deriving DecidableEq

/-- The dispatch order of main: -v wins, then the bare-invocation help,
then -l, then -r (argparse guarantees -r carries at least one region when
present). -/
def dispatch (a : CliArgs) : MainAction :=
  if a.versionFlag then .showVersion
  else if a.argc = 1 then .printHelp
  else if a.listFlag then .listRegions
  else
    match a.regions with
    | some rs => .collectAndSave rs
    | none => .fallThrough

/- ------------------------------------------------------------------
The per-region processing order of main (lines 528-562)
------------------------------------------------------------------ -/

/-- The collect and print steps of one iteration of the region loop, in
statement order. -/
inductive ResEvent where
  | collectEc2
  | printEc2
  | collectEbs
  | printEbs
  | collectRds
  | printRds
  | collectNetwork
  | printVpcSubnets
  | printSecurityGroups
  | collectLb
  | printLoadBalancers
  | printTargetGroups
  | collectS3
  | printS3
deriving DecidableEq

/-- The fixed fourteen-step body of the region loop. -/
def regionEvents : List ResEvent :=
  [.collectEc2, .printEc2, .collectEbs, .printEbs, .collectRds, .printRds,
   .collectNetwork, .printVpcSubnets, .printSecurityGroups,
   .collectLb, .printLoadBalancers, .printTargetGroups, .collectS3, .printS3]

/-- The trace of the region loop over the selected regions, in order. -/
def runTrace (regions : List String) : List (String × ResEvent) :=
  regions.flatMap (fun r => regionEvents.map (fun e => (r, e)))

/-- A top-level event of main: a region-loop step, or the single JSON dump
of the accumulated raw data after the loop. -/
inductive MainEvent where
  | regionStep (region : String) (ev : ResEvent)
  | saveJson (regions : List String)
deriving DecidableEq

def isSaveEvent : MainEvent → Bool
  | .saveJson _ => true
  | _ => false

/-- main: all region-loop steps, then exactly one save of the raw data of
every processed region. -/
def mainEvents (regions : List String) : List MainEvent :=
  (runTrace regions).map (fun p => MainEvent.regionStep p.1 p.2)
    ++ [MainEvent.saveJson regions]

/-- os.path.join(output_dir, filename) with the defaults of
save_region_resources_to_json. -/
def savedFileName (ts : String) : String := "output/aws_resources_raw_" ++ ts ++ ".json"

/- ------------------------------------------------------------------
The json.dump serialization of save_region_resources_to_json (lines 43-67).
A Python value tree: the natively serializable kinds, datetimes (carrying
the string their isoformat() returns), and a non-serializable kind carrying
the text of its type.
------------------------------------------------------------------ -/

mutual
inductive PyVal where
  | pstr (s : String)
  | pint (n : Int)
  | pbool (b : Bool)
  | pnone
  | pdatetime (iso : String)
  | pother (typeName : String)
  | plist (items : PyValList)
  | pdict (entries : PyValDict)
inductive PyValList where
  | nil
  | cons (hd : PyVal) (tl : PyValList)
inductive PyValDict where
  | dnil
  | dcons (key : String) (val : PyVal) (tl : PyValDict)
end

/- json.dump with default=json_serializer, seen as a tree transformation:
native values pass through, a datetime is replaced by its isoformat string,
and any other non-serializable value raises
TypeError(f"Type ... not serializable"), which propagates. -/
mutual
def pySerialize : PyVal → Except String PyVal
  | .pstr s => .ok (.pstr s)
  | .pint n => .ok (.pint n)
  | .pbool b => .ok (.pbool b)
  | .pnone => .ok .pnone
  | .pdatetime iso => .ok (.pstr iso)
  | .pother t => .error ("Type " ++ t ++ " not serializable")
  | .plist items =>
      match pySerializeList items with
      | .ok l => .ok (.plist l)
      | .error e => .error e
  | .pdict entries =>
      match pySerializeDict entries with
      | .ok d => .ok (.pdict d)
      | .error e => .error e
def pySerializeList : PyValList → Except String PyValList
  | .nil => .ok .nil
  | .cons v tl =>
      match pySerialize v, pySerializeList tl with
      | .ok w, .ok tl2 => .ok (.cons w tl2)
      | .error e, _ => .error e
      | .ok _, .error e => .error e
def pySerializeDict : PyValDict → Except String PyValDict
  | .dnil => .ok .dnil
  | .dcons k v tl =>
      match pySerialize v, pySerializeDict tl with
      | .ok w, .ok tl2 => .ok (.dcons k w tl2)
      | .error e, _ => .error e
      | .ok _, .error e => .error e
end

/- Whether the tree contains a value of a non-serializable type. -/
mutual
def hasOther : PyVal → Bool
  | .pother _ => true
  | .plist items => hasOtherList items
  | .pdict entries => hasOtherDict entries
  | _ => false
def hasOtherList : PyValList → Bool
  | .nil => false
  | .cons v tl => hasOther v || hasOtherList tl
def hasOtherDict : PyValDict → Bool
  | .dnil => false
  | .dcons _ v tl => hasOther v || hasOtherDict tl
end

/- Claim-side description of the successful dump: every datetime value is
serialized as its ISO 8601 string and everything else is kept. -/
mutual
def isoMapped : PyVal → PyVal
  | .pstr s => .pstr s
  | .pint n => .pint n
  | .pbool b => .pbool b
  | .pnone => .pnone
  | .pdatetime iso => .pstr iso
  | .pother t => .pother t
  | .plist items => .plist (isoMappedList items)
  | .pdict entries => .pdict (isoMappedDict entries)
def isoMappedList : PyValList → PyValList
  | .nil => .nil
  | .cons v tl => .cons (isoMapped v) (isoMappedList tl)
def isoMappedDict : PyValDict → PyValDict
  | .dnil => .dnil
  | .dcons k v tl => .dcons k (isoMapped v) (isoMappedDict tl)
end

/- ------------------------------------------------------------------
Concrete data used by the witnesses and counterexamples.
------------------------------------------------------------------ -/

/-- An EC2 row with two attached volumes, as collect_ec2_resources builds
them before reformat. -/
def wEc2Data : List Record :=
  [[("Name", Value.str "web-1"), ("EBS", Value.vlist ["vol-1", "vol-2"]),
    ("VPC", Value.str "vpc-1")]]

/-- An RDS row with no connected EC2 instances: the flattened field holds
the empty list. -/
def wEmptyListData : List Record :=
  [[("Name", Value.str "db-1"), ("Connected EC2", Value.vlist [])]]

/-- Two rows with different key sets whose sort swaps them. -/
def c2Data : List Record :=
  [[("b", Value.str "2"), ("x", Value.str "y")], [("b", Value.str "1")]]

/-- Two unsorted rows keyed on the empty-string field. -/
def cexSortData : List Record :=
  [[("", Value.str "b")], [("", Value.str "a")]]

/-- Two rows to sort on the vpc column. -/
def wVpcData : List Record :=
  [[("vpc", Value.str "b")], [("vpc", Value.str "a")]]

/-- Three rows sharing a first-column value, for the row-merging witness. -/
def wTableData : List Record :=
  [[("VPC", Value.str "a"), ("Sub", Value.str "s1")],
   [("VPC", Value.str "a"), ("Sub", Value.str "s2")],
   [("VPC", Value.str "b"), ("Sub", Value.str "s3")]]

/- ==================================================================
Lemmas about the record operations and the reformat transform.
================================================================== -/

lemma claimContinuationRow_eq_blankRow (item : Record) (key : String) (v : String) :
    claimContinuationRow item key v = blankRow item key v := rfl

lemma lookupKey_setKey_self (k : String) (v : Value) :
    ∀ r : Record, (lookupKey r k).isSome → lookupKey (setKey r k v) k = some v := by
  intro r
  induction r with
  | nil => intro h; simp [lookupKey] at h
  | cons p ps ih =>
      intro h
      by_cases hk : p.1 = k
      · simp [setKey, lookupKey, hk]
      · have h2 : (lookupKey ps k).isSome := by simpa [lookupKey, hk] using h
        simpa [setKey, lookupKey, hk] using ih h2

lemma lookupKey_setKey_ne (k k2 : String) (v : Value) (hne : k2 ≠ k) :
    ∀ r : Record, lookupKey (setKey r k v) k2 = lookupKey r k2 := by
  intro r
  induction r with
  | nil => rfl
  | cons p ps ih =>
      have ih2 : lookupKey (ps.map (fun p => if p.1 = k then (p.1, v) else p)) k2 =
          lookupKey ps k2 := by simpa [setKey] using ih
      by_cases hk : p.1 = k
      · have hkk2 : ¬(k = k2) := fun e => hne e.symm
        simp [setKey, lookupKey, hk, hkk2, ih2]
      · by_cases hk2 : p.1 = k2
        · simp [setKey, lookupKey, hk, hk2, hne]
        · simp [setKey, lookupKey, hk, hk2, ih2]

lemma lookupKey_blankRow_key (key : String) (v : String) :
    ∀ item : Record, (lookupKey item key).isSome →
      lookupKey (blankRow item key v) key = some (Value.str v) := by
  intro item
  induction item with
  | nil => intro h; simp [lookupKey] at h
  | cons p ps ih =>
      intro h
      have ih2 : (lookupKey ps key).isSome →
          lookupKey (ps.map (fun p =>
            if p.1 = key then (p.1, Value.str v)
            else if p.1 = "Name" then p
            else (p.1, Value.str ""))) key = some (Value.str v) := by
        intro h2; simpa [blankRow] using ih h2
      by_cases hk : p.1 = key
      · simp [blankRow, lookupKey, hk]
      · have h2 : (lookupKey ps key).isSome := by simpa [lookupKey, hk] using h
        by_cases hn : p.1 = "Name"
        · have hnk : ¬(("Name" : String) = key) := hn ▸ hk
          simp [blankRow, lookupKey, hn, hnk, ih2 h2]
        · simp [blankRow, lookupKey, hk, hn, ih2 h2]

lemma reformatItem_isSome (key : String) (item : Record)
    (h : lookupKey item key ≠ some (Value.vlist [])) :
    (reformatItem key item).isSome := by
  rcases hv : lookupKey item key with _ | v
  · simp [reformatItem, hv]
  · cases v with
    | str s => simp [reformatItem, hv]
    | int n => simp [reformatItem, hv]
    | bool b => simp [reformatItem, hv]
    | vlist l =>
        cases l with
        | nil => exact absurd hv h
        | cons a as => cases as <;> simp [reformatItem, hv]

lemma reformat_eq_claimReformat (key : String) :
    ∀ data : List Record,
      (∀ item ∈ data, lookupKey item key ≠ some (Value.vlist [])) →
      reformat data key = some (claimReformat data key) := by
  intro data
  induction data with
  | nil => intro _; rfl
  | cons item rest ih =>
      intro h
      have hitem := h item (by simp)
      have ihr := ih (fun i hi => h i (by simp [hi]))
      rcases hv : lookupKey item key with _ | v
      · simp [reformat, reformatItem, hv, ihr, claimReformat, List.flatMap_cons]
      · cases v with
        | str s => simp [reformat, reformatItem, hv, ihr, claimReformat, List.flatMap_cons]
        | int n => simp [reformat, reformatItem, hv, ihr, claimReformat, List.flatMap_cons]
        | bool b => simp [reformat, reformatItem, hv, ihr, claimReformat, List.flatMap_cons]
        | vlist l =>
            cases l with
            | nil => exact absurd hv hitem
            | cons a as =>
                cases as with
                | nil =>
                    simp [reformat, reformatItem, hv, ihr, claimReformat, List.flatMap_cons]
                | cons b bs =>
                    simp [reformat, reformatItem, hv, ihr, claimReformat, List.flatMap_cons,
                      claimContinuationRow_eq_blankRow]

lemma reformat_flatMap (key : String) :
    ∀ data : List Record,
      (∀ item ∈ data, lookupKey item key ≠ some (Value.vlist [])) →
      reformat data key =
        some (data.flatMap (fun item => (reformatItem key item).getD [])) := by
  intro data
  induction data with
  | nil => intro _; rfl
  | cons item rest ih =>
      intro h
      have hs := reformatItem_isSome key item (h item (by simp))
      rcases ho : reformatItem key item with _ | rows
      · rw [ho] at hs; simp at hs
      · have ihr := ih (fun i hi => h i (by simp [hi]))
        simp [reformat, ho, ihr, List.flatMap_cons]

lemma map_enumFrom_succ {α β : Type} (f : Nat × α → β) (g : α → β)
    (hfg : ∀ i x, f (i + 1, x) = g x) :
    ∀ (l : List α) (n : Nat), (List.enumFrom (n + 1) l).map f = l.map g := by
  intro l
  induction l with
  | nil => intro n; rfl
  | cons x xs ih =>
      intro n
      simp only [List.enumFrom, List.map_cons, hfg n x, ih (n + 1)]

lemma map_enumFrom_listener (lb : LoadBalancer) :
    ∀ (rest : List Listener) (n : Nat),
      (List.enumFrom (n + 1) rest).map (fun p =>
        if p.1 = 0 then
          [("Name", lb.name), ("Type", lb.lbType), ("Scheme", lb.scheme), ("Vpc", lb.vpc),
           ("SecurityGroups", lb.securityGroups), ("Listener", Value.str (listenerStr p.2))]
        else
          [("Name", lb.name), ("Type", Value.str ""), ("Scheme", Value.str ""),
           ("Vpc", Value.str ""), ("SecurityGroups", Value.str ""),
           ("Listener", Value.str (listenerStr p.2))]) =
      rest.map (fun lsn =>
        [("Name", lb.name), ("Type", Value.str ""), ("Scheme", Value.str ""),
         ("Vpc", Value.str ""), ("SecurityGroups", Value.str ""),
         ("Listener", Value.str (listenerStr lsn))]) := by
  intro rest
  induction rest with
  | nil => intro n; rfl
  | cons x xs ih =>
      intro n
      simp only [List.enumFrom, List.map_cons, ih (n + 1)]
      simp

lemma expandRows_eq_claimExpandRows (lb : LoadBalancer) :
    expandRows lb = claimExpandRows lb := by
  rcases hl : lb.listener with _ | ⟨first, rest⟩
  · simp [expandRows, claimExpandRows, hl, List.enum]
  · simp only [expandRows, claimExpandRows, hl, List.enum, List.enumFrom, List.map_cons]
    rw [show (1 : Nat) = 0 + 1 from rfl, map_enumFrom_listener lb rest 0]
    simp

lemma expand_eq_claimExpand (lbs : List LoadBalancer) :
    expand_listeners_with_condensed_fields lbs = claimExpand lbs := by
  unfold expand_listeners_with_condensed_fields claimExpand
  induction lbs with
  | nil => rfl
  | cons lb rest ih =>
      simp only [List.flatMap_cons, expandRows_eq_claimExpandRows, ih]

/- ==================================================================
Claims C1, C4, C9.
================================================================== -/

/-- C1 (corrected): provided no flattened field holds an empty list,
reformat emits, for each record whose key field is a list, one row per
element: the first row is the record with the key field replaced by the
first element, and each continuation row carries the next element, repeats
"Name" and blanks every other field; and
expand_listeners_with_condensed_fields does the same for the Listener field
of load balancers (with no restriction, an empty listener list giving zero
rows).  On an empty list the source raises IndexError, so the unamended
claim fails (see the counterexample). -/
theorem C1_flattening (data : List Record) (key : String)
    (h : ∀ item ∈ data, lookupKey item key ≠ some (Value.vlist [])) :
    reformat data key = some (claimReformat data key) ∧
    ∀ lbs : List LoadBalancer, expand_listeners_with_condensed_fields lbs = claimExpand lbs :=
  ⟨reformat_eq_claimReformat key data h, expand_eq_claimExpand⟩

/-- C1 counterexample: on a record whose key field is the empty list the
claim asks for zero emitted rows, but reformat raises IndexError
(list_items[0]) instead of returning a result. -/
theorem C1_counterexample :
    reformat wEmptyListData "Connected EC2" = none ∧
    some (claimReformat wEmptyListData "Connected EC2") ≠ (none : Option (List Record)) := by
  constructor
  · rfl
  · simp

theorem C1_witness :
    (∀ item ∈ wEc2Data, lookupKey item "EBS" ≠ some (Value.vlist [])) ∧
    (reformat wEc2Data "EBS" = some (claimReformat wEc2Data "EBS") ∧
     ∀ lbs : List LoadBalancer,
       expand_listeners_with_condensed_fields lbs = claimExpand lbs) :=
  ⟨by decide, C1_flattening wEc2Data "EBS" (by decide)⟩

/-- C4 (corrected): provided no flattened field holds an empty list,
reformat preserves the input: the output is the in-order concatenation of
the per-record row groups, the key-field values across a flattened record's
rows are exactly the original list, every non-key field of the record keeps
its value in the first emitted row, and a record whose key field is absent
or not a list passes through unchanged in its position.  On an empty list
the source raises IndexError instead (see the counterexample). -/
theorem C4_preservation (data : List Record) (key : String)
    (h : ∀ item ∈ data, lookupKey item key ≠ some (Value.vlist [])) :
    (reformat data key =
       some (data.flatMap (fun item => (reformatItem key item).getD []))) ∧
    (∀ item ∈ data, ∀ l, lookupKey item key = some (Value.vlist l) →
       ∃ rows, reformatItem key item = some rows ∧ rows ≠ [] ∧
         rows.map (fun r => lookupKey r key) = l.map (fun v => some (Value.str v)) ∧
         (∀ k2, k2 ≠ key → lookupKey (rows.headD []) k2 = lookupKey item k2)) ∧
    (∀ item ∈ data, (∀ l, lookupKey item key ≠ some (Value.vlist l)) →
       reformatItem key item = some [item]) := by
  refine ⟨reformat_flatMap key data h, ?_, ?_⟩
  · intro item hmem l hv
    have hne := h item hmem
    have hsome : (lookupKey item key).isSome := by simp [hv]
    cases l with
    | nil => rw [hv] at hne; simp at hne
    | cons a as =>
        cases as with
        | nil =>
            refine ⟨[setKey item key (Value.str a)], by simp [reformatItem, hv], by simp, ?_, ?_⟩
            · simp [lookupKey_setKey_self key (Value.str a) item hsome]
            · intro k2 hk2
              simp [lookupKey_setKey_ne key k2 (Value.str a) hk2 item]
        | cons b bs =>
            refine ⟨setKey item key (Value.str a) :: (b :: bs).map (fun v => blankRow item key v),
              by simp [reformatItem, hv], by simp, ?_, ?_⟩
            · simp only [List.map_cons, List.map_map, List.cons.injEq]
              refine ⟨?_, ?_, ?_⟩
              · exact lookupKey_setKey_self key (Value.str a) item hsome
              · exact lookupKey_blankRow_key key b item hsome
              · apply List.map_congr_left
                intro v _
                exact lookupKey_blankRow_key key v item hsome
            · intro k2 hk2
              simp [lookupKey_setKey_ne key k2 (Value.str a) hk2 item]
  · intro item _ hnl
    rcases hv : lookupKey item key with _ | v
    · simp [reformatItem, hv]
    · cases v with
      | str s => simp [reformatItem, hv]
      | int n => simp [reformatItem, hv]
      | bool b => simp [reformatItem, hv]
      | vlist l => exact absurd hv (hnl l)

theorem C4_witness :
    (∀ item ∈ wEc2Data, lookupKey item "EBS" ≠ some (Value.vlist [])) ∧
    ((reformat wEc2Data "EBS" =
        some (wEc2Data.flatMap (fun item => (reformatItem "EBS" item).getD []))) ∧
     (∀ item ∈ wEc2Data, ∀ l, lookupKey item "EBS" = some (Value.vlist l) →
        ∃ rows, reformatItem "EBS" item = some rows ∧ rows ≠ [] ∧
          rows.map (fun r => lookupKey r "EBS") = l.map (fun v => some (Value.str v)) ∧
          (∀ k2, k2 ≠ "EBS" → lookupKey (rows.headD []) k2 = lookupKey item k2)) ∧
     (∀ item ∈ wEc2Data, (∀ l, lookupKey item "EBS" ≠ some (Value.vlist l)) →
        reformatItem "EBS" item = some [item])) :=
  ⟨by decide, C4_preservation wEc2Data "EBS" (by decide)⟩

/-- C4 counterexample: for a record whose key field is the empty list the
claim asks for a pass through an in-order decomposition, but reformat
returns no result at all (IndexError). -/
theorem C4_counterexample :
    reformat wEmptyListData "Connected EC2" = none ∧
    ∀ out : List Record, reformat wEmptyListData "Connected EC2" ≠ some out := by
  constructor
  · rfl
  · intro out
    simp [show reformat wEmptyListData "Connected EC2" = none from rfl]

/-- C9: print_table on the empty record list prints exactly the no-data
message, for every sortKey, with no header, separator or data row. -/
theorem C9_empty_table (sk : Option String) :
    print_table [] sk = some ["No data available to display."] := rfl

/- ==================================================================
Lemmas about the Python string order and the sort step.
================================================================== -/

lemma charsLE_refl : ∀ cs : List Char, charsLE cs cs = true := by
  intro cs
  induction cs with
  | nil => rfl
  | cons a as ih => simp [charsLE, lt_irrefl, ih]

lemma strLE_refl (s : String) : strLE s s = true := charsLE_refl s.data

lemma charsLE_total : ∀ x y : List Char, charsLE x y = true ∨ charsLE y x = true := by
  intro x
  induction x with
  | nil => intro y; left; rfl
  | cons a as ih =>
      intro y
      cases y with
      | nil => right; rfl
      | cons b bs =>
          rcases lt_trichotomy a b with hab | hab | hab
          · left; simp [charsLE, hab]
          · subst hab
            rcases ih bs with h | h
            · left; simp [charsLE, lt_irrefl, h]
            · right; simp [charsLE, lt_irrefl, h]
          · right; simp [charsLE, hab]

lemma charsLE_trans :
    ∀ x y z : List Char, charsLE x y = true → charsLE y z = true → charsLE x z = true := by
  intro x
  induction x with
  | nil => intro y z _ _; rfl
  | cons a as ih =>
      intro y z h1 h2
      cases y with
      | nil => simp [charsLE] at h1
      | cons b bs =>
          cases z with
          | nil => simp [charsLE] at h2
          | cons c cs =>
              by_cases hab : a < b
              · by_cases hbc : b < c
                · simp [charsLE, lt_trans hab hbc]
                · by_cases hbc2 : b = c
                  · subst hbc2; simp [charsLE, hab]
                  · simp [charsLE, hbc, hbc2] at h2
              · by_cases hab2 : a = b
                · subst hab2
                  have h1r : charsLE as bs = true := by
                    simpa [charsLE, lt_irrefl] using h1
                  by_cases hac : a < c
                  · simp [charsLE, hac]
                  · by_cases hac2 : a = c
                    · subst hac2
                      have h2r : charsLE bs cs = true := by
                        simpa [charsLE, lt_irrefl] using h2
                      simp [charsLE, lt_irrefl, ih bs cs h1r h2r]
                    · simp [charsLE, hac, hac2] at h2
                · simp [charsLE, hab, hab2] at h1

lemma strLE_total (a b : String) : strLE a b = true ∨ strLE b a = true :=
  charsLE_total a.data b.data

lemma strLE_trans {a b c : String} (h1 : strLE a b = true) (h2 : strLE b c = true) :
    strLE a c = true :=
  charsLE_trans a.data b.data c.data h1 h2

lemma pairwise_of_forall_mem {α : Type} {r : α → α → Prop} :
    ∀ {l : List α}, (∀ x ∈ l, ∀ y ∈ l, r x y) → l.Pairwise r := by
  intro l
  induction l with
  | nil => intro _; exact List.Pairwise.nil
  | cons a as ih =>
      intro h
      refine List.Pairwise.cons ?_ (ih ?_)
      · intro y hy; exact h a (by simp) y (by simp [hy])
      · intro x hx y hy; exact h x (by simp [hx]) y (by simp [hy])

/-- Stability of the sort: filtering the sorted list by a predicate that
only selects mutually tied elements gives back the input filtered, that is
tied elements keep their input order. -/
lemma insertionSort_filter_stable {α : Type} (r : α → α → Prop) [DecidableRel r]
    (p : α → Bool) (hties : ∀ x y, p x = true → p y = true → r x y) (l : List α) :
    (List.insertionSort r l).filter p = l.filter p := by
  have hpair : (l.filter p).Pairwise r := by
    apply pairwise_of_forall_mem
    intro x hx y hy
    exact hties x y (List.of_mem_filter hx) (List.of_mem_filter hy)
  have hsub : (l.filter p).Sublist (List.insertionSort r l) :=
    List.sublist_insertionSort hpair (List.filter_sublist l)
  have hsub2 : ((l.filter p).filter p).Sublist ((List.insertionSort r l).filter p) :=
    List.Sublist.filter p hsub
  have hidem : (l.filter p).filter p = l.filter p := by
    apply List.filter_eq_self.mpr
    intro a ha
    exact List.of_mem_filter ha
  rw [hidem] at hsub2
  have hperm : ((List.insertionSort r l).filter p).Perm (l.filter p) :=
    (List.perm_insertionSort r l).filter p
  exact (List.Sublist.eq_of_length hsub2 hperm.length_eq.symm).symm

lemma sortStep_perm {data tdata : List Record} {sk : Option String}
    (h : sortStep data sk = some tdata) : List.Perm tdata data := by
  cases sk with
  | none =>
      have he : data = tdata := by simpa [sortStep] using h
      rw [← he]
  | some k =>
      by_cases hk : k = ""
      · have he : data = tdata := by simpa [sortStep, hk] using h
        rw [← he]
      · by_cases hok : sortOK data k = true
        · have he : List.insertionSort
              (fun a b => strLE (keyStrOf k a) (keyStrOf k b) = true) data = tdata := by
            simpa [sortStep, hk, hok] using h
          rw [← he]
          exact List.perm_insertionSort _ data
        · simp [sortStep, hk, hok] at h

lemma keysOf_ne_nil {r : Record} (h : r ≠ []) : keysOf r ≠ [] := by
  cases r with
  | nil => exact absurd rfl h
  | cons p ps => simp [keysOf]

lemma lookupKey_ne_nil {r : Record} {k : String} {w : Value}
    (h : lookupKey r k = some w) : r ≠ [] := by
  cases r with
  | nil => simp [lookupKey] at h
  | cons p ps => simp

lemma print_table_eq_tableLines {data tdata : List Record} {sk : Option String}
    (h1 : data ≠ []) (h2 : sortStep data sk = some tdata)
    (h3 : headersOf tdata ≠ []) :
    print_table data sk = some (tableLines tdata) := by
  have hne : data.isEmpty = false := by
    cases data with
    | nil => exact absurd rfl h1
    | cons a as => rfl
  have hh : (headersOf tdata).isEmpty = false := by
    cases hv : headersOf tdata with
    | nil => exact absurd hv h3
    | cons a as => rfl
  simp [print_table, hne, h2, hh]

/- ==================================================================
Claim C10: sorting is a stable nondecreasing permutation.
================================================================== -/

/-- C10 (corrected): for every non-empty list of records each holding a
string under the sortKey, print_table called with a non-empty sortKey
renders the rows of a stable nondecreasing permutation of the input, and
the sort builds a new list rather than touching the input.  Python
truthiness makes the empty-string sortKey skip the sort entirely, so the
unamended claim fails there (see the counterexample). -/
theorem C10_sorted_rows (data : List Record) (k : String)
    (h1 : data ≠ []) (h2 : k ≠ "") (h3 : sortOK data k = true) :
    ∃ tdata, sortStep data (some k) = some tdata ∧
      print_table data (some k) = some (tableLines tdata) ∧
      sortClaim data k tdata := by
  have hstep : sortStep data (some k) =
      some (List.insertionSort
        (fun a b => strLE (keyStrOf k a) (keyStrOf k b) = true) data) := by
    simp [sortStep, h2, h3]
  refine ⟨_, hstep, ?_, ?_, ?_, ?_⟩
  · have hperm := sortStep_perm hstep
    have htne : List.insertionSort
        (fun a b => strLE (keyStrOf k a) (keyStrOf k b) = true) data ≠ [] := by
      intro he
      rw [he] at hperm
      exact h1 hperm.symm.eq_nil
    exact print_table_eq_tableLines h1 hstep (by
      rcases hv : List.insertionSort
          (fun a b => strLE (keyStrOf k a) (keyStrOf k b) = true) data with _ | ⟨t0, ts⟩
      · exact absurd hv htne
      · have ht0 : t0 ∈ data := by
          have : t0 ∈ List.insertionSort
              (fun a b => strLE (keyStrOf k a) (keyStrOf k b) = true) data := by
            rw [hv]; simp
          exact (List.perm_insertionSort _ data).mem_iff.mp this
        have hok : recOK k t0 = true := by
          have := List.all_eq_true.mp h3
          exact this t0 ht0
        have hlk : ∃ s, lookupKey t0 k = some (Value.str s) := by
          rcases hw : lookupKey t0 k with _ | w
          · simp [recOK, hw] at hok
          · cases w with
            | str s => exact ⟨s, rfl⟩
            | int n => simp [recOK, hw] at hok
            | bool b => simp [recOK, hw] at hok
            | vlist es => simp [recOK, hw] at hok
        rcases hlk with ⟨s, hs⟩
        simp only [headersOf, hv, List.headD_cons]
        exact keysOf_ne_nil (lookupKey_ne_nil hs))
  · exact sortStep_perm hstep
  · haveI : IsTotal Record (fun a b => strLE (keyStrOf k a) (keyStrOf k b) = true) :=
      ⟨fun a b => strLE_total _ _⟩
    haveI : IsTrans Record (fun a b => strLE (keyStrOf k a) (keyStrOf k b) = true) :=
      ⟨fun _ _ _ => strLE_trans⟩
    exact List.sorted_insertionSort _ data
  · intro v
    apply insertionSort_filter_stable
    intro x y hx hy
    have hx2 : keyStrOf k x = v := by simpa using hx
    have hy2 : keyStrOf k y = v := by simpa using hy
    rw [hx2, hy2]
    exact strLE_refl v

/-- C10 counterexample: with the sortKey being the empty-string field name,
Python's "if sortKey:" is false, the sort is skipped, and the rows are
rendered out of order. -/
theorem C10_counterexample :
    sortStep cexSortData (some "") = some cexSortData ∧
    ¬ cexSortData.Pairwise
        (fun a b => strLE (keyStrOf "" a) (keyStrOf "" b) = true) := by
  constructor
  · rfl
  · decide

theorem C10_witness :
    (wVpcData ≠ []) ∧ (("vpc" : String) ≠ "") ∧ (sortOK wVpcData "vpc" = true) ∧
    (∃ tdata, sortStep wVpcData (some "vpc") = some tdata ∧
      print_table wVpcData (some "vpc") = some (tableLines tdata) ∧
      sortClaim wVpcData "vpc" tdata) :=
  ⟨by decide, by decide, by decide,
   C10_sorted_rows wVpcData "vpc" (by decide) (by decide) (by decide)⟩

/- ==================================================================
Lemmas about column widths and the data-row loop.
================================================================== -/

lemma le_foldl_max {α : Type} (f : α → Nat) :
    ∀ (l : List α) (a : Nat), a ≤ l.foldl (fun acc x => max acc (f x)) a := by
  intro l
  induction l with
  | nil => intro a; exact Nat.le_refl a
  | cons x xs ih =>
      intro a
      exact le_trans (Nat.le_max_left a (f x)) (ih (max a (f x)))

lemma foldl_max_of_mem {α : Type} (f : α → Nat) :
    ∀ (l : List α) (a : Nat) (x : α), x ∈ l →
      f x ≤ l.foldl (fun acc x => max acc (f x)) a := by
  intro l
  induction l with
  | nil => intro a x hx; simp at hx
  | cons y ys ih =>
      intro a x hx
      rcases List.mem_cons.mp hx with he | hm
      · subst he
        exact le_trans (Nat.le_max_right a (f x)) (le_foldl_max f ys (max a (f x)))
      · exact ih (max a (f y)) x hm

lemma foldl_max_attains {α : Type} (f : α → Nat) :
    ∀ (l : List α) (a : Nat),
      l.foldl (fun acc x => max acc (f x)) a = a ∨
      ∃ x ∈ l, l.foldl (fun acc x => max acc (f x)) a = f x := by
  intro l
  induction l with
  | nil => intro a; left; rfl
  | cons y ys ih =>
      intro a
      rcases ih (max a (f y)) with h | ⟨x, hx, hfx⟩
      · rcases Nat.le_total a (f y) with hle | hle
        · right
          exact ⟨y, by simp, by rw [List.foldl_cons, h, Nat.max_eq_right hle]⟩
        · left
          rw [List.foldl_cons, h, Nat.max_eq_left hle]
      · right
        exact ⟨x, by simp [hx], by rw [List.foldl_cons, hfx]⟩

lemma colWidth_ge_header (tdata : List Record) (h : String) :
    h.length ≤ colWidth tdata h :=
  le_foldl_max (fun row => (cellStr row h).length) tdata h.length

lemma colWidth_ge_cell {tdata : List Record} {r : Record} (h : String) (hr : r ∈ tdata) :
    (cellStr r h).length ≤ colWidth tdata h :=
  foldl_max_of_mem (fun row => (cellStr row h).length) tdata h.length r hr

lemma colWidth_attains (tdata : List Record) (h : String) :
    colWidth tdata h = h.length ∨ ∃ r ∈ tdata, colWidth tdata h = (cellStr r h).length :=
  foldl_max_attains (fun row => (cellStr row h).length) tdata h.length

lemma padTo_length (s : String) (w : Nat) : (padTo s w).length = max s.length w := by
  have hmk : (String.mk (List.replicate (w - s.length) ' ')).length = w - s.length := by
    show (List.replicate (w - s.length) ' ').length = w - s.length
    simp
  rw [padTo, String.length_append, hmk]
  omega

lemma dataLines_zip (tdata : List Record) (hs : List String) :
    ∀ (rows : List Record) (prev : Option Value),
      dataLines tdata hs rows prev =
        (rows.zip (prev :: rows.map (fun r => some (firstColVal hs r)))).flatMap
          (fun p =>
            if some (firstColVal hs p.1) = p.2 then
              [renderRowLine tdata hs ("" :: hs.tail.map (fun h => cellStr p.1 h))]
            else
              [sepLine tdata, renderRowLine tdata hs (hs.map (fun h => cellStr p.1 h))]) := by
  intro rows
  induction rows with
  | nil => intro prev; rfl
  | cons row rest ih =>
      intro prev
      simp only [List.map_cons, List.zip_cons_cons, List.flatMap_cons, dataLines]
      by_cases hc : some (firstColVal hs row) = prev
      · rw [if_pos hc, if_pos hc, ih (some (firstColVal hs row))]
        rfl
      · rw [if_neg hc, if_neg hc, ih (some (firstColVal hs row))]
        rfl

/- ==================================================================
Claims C2 and C3: column widths and row merging.
================================================================== -/

/-- C2 (corrected): for every non-empty list of records (whose displayed
table has at least one column), every rendered column width equals the
maximum string length over all entries of the column including its header,
a value missing from a row counting as the empty string; the columns are
the keys of the first record of the displayed (post-sort) order - with a
sortKey this can differ from the first input record, see the
counterexample. -/
theorem C2_column_widths (data tdata : List Record) (sk : Option String)
    (h1 : data ≠ []) (h2 : sortStep data sk = some tdata)
    (h3 : headersOf tdata ≠ []) :
    print_table data sk = some (tableLines tdata) ∧ widthClaim data tdata := by
  have hperm := sortStep_perm h2
  refine ⟨print_table_eq_tableLines h1 h2 h3, rfl, ?_, ?_, ?_⟩
  · intro h
    refine ⟨colWidth_ge_header tdata h, ?_, ?_⟩
    · intro r hr
      exact colWidth_ge_cell h (hperm.mem_iff.mpr hr)
    · rcases colWidth_attains tdata h with hh | ⟨r, hr, he⟩
      · left; exact hh
      · right; exact ⟨r, hperm.mem_iff.mp hr, he⟩
  · intro r hr h
    rw [padTo_length]
    exact Nat.max_eq_right (colWidth_ge_cell h hr)
  · intro h
    rw [padTo_length]
    exact Nat.max_eq_right (colWidth_ge_header tdata h)

/-- C2 counterexample: headers are taken from data[0] after the sort, so a
sortKey that reorders records with different key sets renders the columns
of the sorted first record, not of the first input record. -/
theorem C2_counterexample :
    (sortStep c2Data (some "b")).map headersOf = some ["b"] ∧
    keysOf (c2Data.headD []) = ["b", "x"] ∧
    (["b"] : List String) ≠ ["b", "x"] := by
  decide

theorem C2_witness :
    (wTableData ≠ []) ∧ sortStep wTableData none = some wTableData ∧
    headersOf wTableData ≠ [] ∧
    (print_table wTableData none = some (tableLines wTableData) ∧
     widthClaim wTableData wTableData) :=
  ⟨by decide, rfl, by decide,
   C2_column_widths wTableData wTableData none (by decide) rfl (by decide)⟩

/-- C3: pairing every displayed row with its predecessor, print_table
blanks a row's first column exactly when its first-column value equals the
previous row's, and prints a horizontal separator before each row whose
first-column value differs from the previous row's (the first row has no
previous row and is printed in full after a separator). -/
theorem C3_row_merging (data tdata : List Record) (sk : Option String)
    (h1 : data ≠ []) (h2 : sortStep data sk = some tdata)
    (h3 : headersOf tdata ≠ []) :
    print_table data sk = some (tableLines tdata) ∧ mergeClaim tdata :=
  ⟨print_table_eq_tableLines h1 h2 h3, dataLines_zip tdata (headersOf tdata) tdata none⟩

theorem C3_witness :
    (wTableData ≠ []) ∧ sortStep wTableData none = some wTableData ∧
    headersOf wTableData ≠ [] ∧
    (print_table wTableData none = some (tableLines wTableData) ∧ mergeClaim wTableData) :=
  ⟨by decide, rfl, by decide,
   C3_row_merging wTableData wTableData none (by decide) rfl (by decide)⟩

/- ==================================================================
Claim C5: the command-line surface.
================================================================== -/

/-- C5 (corrected): the CLI accepts exactly the flags for listing regions
(-l), selecting regions (-r) and showing the version (-v or --version),
which dispatch to the corresponding actions; the output artifacts are the
tee'd log file and the raw JSON dump.  There is no topology-drawing flag
and no rendered graph image (see the counterexample). -/
theorem C5_cli_surface :
    cliFlags.map (fun f => f.options) = [["-l"], ["-r"], ["-v", "--version"]] ∧
    dispatch ⟨false, none, true, 2⟩ = MainAction.showVersion ∧
    dispatch ⟨true, none, false, 2⟩ = MainAction.listRegions ∧
    (∀ rs : List String, dispatch ⟨false, some rs, false, 2⟩ = MainAction.collectAndSave rs) ∧
    mainArtifacts = [OutputArtifact.logFile, OutputArtifact.rawJsonDump] :=
  ⟨rfl, rfl, rfl, fun _ => rfl, rfl⟩

/-- C5 counterexample: no registered flag concerns drawing a topology
graph, and the artifact list carries no graph image file. -/
theorem C5_counterexample :
    cliFlags.all (fun f => !(isTopologyFlag f)) = true ∧
    OutputArtifact.topologyImage ∉ mainArtifacts := by
  decide

/- ==================================================================
Claim C6: sentinel fallbacks.
================================================================== -/

lemma nameFromTags_of_no_name :
    ∀ tags : List (String × String), (∀ t ∈ tags, t.1 ≠ "Name") →
      nameFromTags tags = "N/A" := by
  intro tags
  induction tags with
  | nil => intro _; rfl
  | cons t ts ih =>
      intro h
      have ht : t.1 ≠ "Name" := h t (by simp)
      simp only [nameFromTags, if_neg ht]
      exact ih (fun x hx => h x (by simp [hx]))

/-- C6: when an individual lookup fails or the looked-up value is absent,
the collectors record the sentinel "N/A" instead of failing the run: a tag
list with no Name key (collect_ec2_resources), an absent target id, a
raising describe_instances call, and a response with no Name tag anywhere
(collect_lb_resources) all resolve to "N/A". -/
theorem C6_sentinel_fallback :
    (∀ tags : List (String × String), (∀ t ∈ tags, t.1 ≠ "Name") →
       nameFromTags tags = "N/A") ∧
    (∀ d : Option (List Reservation), targetName none d = "N/A") ∧
    (∀ iid : String, targetName (some iid) none = "N/A") ∧
    (∀ iid : String, ∀ rs : List Reservation,
       (∀ t ∈ allTags rs, t.1 ≠ "Name") → targetName (some iid) (some rs) = "N/A") := by
  refine ⟨nameFromTags_of_no_name, fun d => rfl, ?_, ?_⟩
  · intro iid
    by_cases hi : iid = "N/A"
    · simp [targetName, hi]
    · simp [targetName, hi]
  · intro iid rs h
    by_cases hi : iid = "N/A"
    · simp [targetName, hi]
    · simp [targetName, hi, nameFromReservations, nameFromTags_of_no_name (allTags rs) h]

theorem C6_witness :
    (∀ t ∈ [("env", "prod"), ("role", "web")], Prod.fst t ≠ "Name") ∧
    nameFromTags [("env", "prod"), ("role", "web")] = "N/A" ∧
    targetName none (some []) = "N/A" ∧
    targetName (some "i-123") none = "N/A" ∧
    targetName (some "i-123") (some [⟨[⟨[("app", "api")]⟩]⟩]) = "N/A" :=
  ⟨by decide,
   C6_sentinel_fallback.1 _ (by decide),
   C6_sentinel_fallback.2.1 _,
   C6_sentinel_fallback.2.2.1 _,
   C6_sentinel_fallback.2.2.2 "i-123" _ (by decide)⟩

/- ==================================================================
Claim C7: strict sequencing of regions and resource types.
================================================================== -/

lemma runTrace_cons (r : String) (rs : List String) :
    runTrace (r :: rs) = regionEvents.map (fun e => (r, e)) ++ runTrace rs := by
  simp [runTrace, List.flatMap_cons]

lemma regionEvents_length : regionEvents.length = 14 := rfl

lemma runTrace_length :
    ∀ regions : List String, (runTrace regions).length = regions.length * 14 := by
  intro regions
  induction regions with
  | nil => rfl
  | cons r rs ih =>
      rw [runTrace_cons, List.length_append, List.length_map, regionEvents_length, ih,
        List.length_cons]
      ring

lemma runTrace_get :
    ∀ (regions : List String) (q j : Nat) (hq : q < regions.length) (hj : j < 14),
      (runTrace regions)[q * 14 + j]? =
        some (regions.get ⟨q, hq⟩, regionEvents.get ⟨j, hj⟩) := by
  intro regions
  induction regions with
  | nil => intro q j hq hj; simp at hq
  | cons r rs ih =>
      intro q j hq hj
      rw [runTrace_cons, List.getElem?_append]
      have hlen : (List.map (fun e => (r, e)) regionEvents).length = 14 := by
        rw [List.length_map, regionEvents_length]
      cases q with
      | zero =>
          have hcond : 0 * 14 + j < (List.map (fun e => (r, e)) regionEvents).length := by
            rw [hlen]; omega
          have hn : 0 * 14 + j = j := by omega
          rw [if_pos hcond, hn, List.getElem?_map,
            List.getElem?_eq_getElem (show j < regionEvents.length from hj)]
          simp [List.get_eq_getElem]
      | succ q2 =>
          have hcond :
              ¬((q2 + 1) * 14 + j < (List.map (fun e => (r, e)) regionEvents).length) := by
            rw [hlen]; omega
          rw [if_neg hcond, hlen]
          have he : (q2 + 1) * 14 + j - 14 = q2 * 14 + j := by omega
          rw [he]
          have hq2 : q2 < rs.length := by
            simp only [List.length_cons] at hq
            omega
          rw [ih q2 j hq2 hj]
          rfl

/-- C7: the run processes the selected regions strictly one after another
in the selected order, each region contributing the same fixed
fourteen-step block of collect and print steps, in order: EC2 instances,
EBS volumes, RDS instances, the network collection followed by the
VPC-subnet table and the security-group table, load balancers followed by
their target groups, then S3 buckets.  Trace position q * 14 + j belongs to
region q and step j, so neither regions nor resource types interleave. -/
theorem C7_sequential_regions (regions : List String) (q j : Nat)
    (hq : q < regions.length) (hj : j < 14) :
    (runTrace regions).length = regions.length * 14 ∧
    (runTrace regions)[q * 14 + j]? =
      some (regions.get ⟨q, hq⟩, regionEvents.get ⟨j, hj⟩) :=
  ⟨runTrace_length regions, runTrace_get regions q j hq hj⟩

theorem C7_witness :
    (1 < (["us-east-1", "ap-northeast-1"] : List String).length) ∧ (3 < 14) ∧
    ((runTrace ["us-east-1", "ap-northeast-1"]).length =
        (["us-east-1", "ap-northeast-1"] : List String).length * 14 ∧
     (runTrace ["us-east-1", "ap-northeast-1"])[1 * 14 + 3]? =
       some ((["us-east-1", "ap-northeast-1"] : List String).get ⟨1, by decide⟩,
             regionEvents.get ⟨3, by decide⟩)) :=
  ⟨by decide, by decide,
   C7_sequential_regions ["us-east-1", "ap-northeast-1"] 1 3 (by decide) (by decide)⟩

/- ==================================================================
Claim C8: single JSON dump after the loop, datetime serialization.
================================================================== -/

mutual
theorem pySerialize_ok :
    ∀ v : PyVal, hasOther v = false → pySerialize v = Except.ok (isoMapped v)
  | .pstr _, _ => rfl
  | .pint _, _ => rfl
  | .pbool _, _ => rfl
  | .pnone, _ => rfl
  | .pdatetime _, _ => rfl
  | .pother _, h => by simp [hasOther] at h
  | .plist items, h => by
      have hh : hasOtherList items = false := by simpa [hasOther] using h
      have hrec := pySerializeList_ok items hh
      simp [pySerialize, isoMapped, hrec]
  | .pdict entries, h => by
      have hh : hasOtherDict entries = false := by simpa [hasOther] using h
      have hrec := pySerializeDict_ok entries hh
      simp [pySerialize, isoMapped, hrec]
theorem pySerializeList_ok :
    ∀ l : PyValList, hasOtherList l = false →
      pySerializeList l = Except.ok (isoMappedList l)
  | .nil, _ => rfl
  | .cons v tl, h => by
      have hsplit := Bool.or_eq_false_iff.mp (by simpa [hasOtherList] using h)
      have e1 := pySerialize_ok v hsplit.1
      have e2 := pySerializeList_ok tl hsplit.2
      simp [pySerializeList, isoMappedList, e1, e2]
theorem pySerializeDict_ok :
    ∀ d : PyValDict, hasOtherDict d = false →
      pySerializeDict d = Except.ok (isoMappedDict d)
  | .dnil, _ => rfl
  | .dcons k v tl, h => by
      have hsplit := Bool.or_eq_false_iff.mp (by simpa [hasOtherDict] using h)
      have e1 := pySerialize_ok v hsplit.1
      have e2 := pySerializeDict_ok tl hsplit.2
      simp [pySerializeDict, isoMappedDict, e1, e2]
end

mutual
theorem pySerialize_error :
    ∀ v : PyVal, hasOther v = true →
      ∃ t, pySerialize v = Except.error ("Type " ++ t ++ " not serializable")
  | .pstr _, h => by simp [hasOther] at h
  | .pint _, h => by simp [hasOther] at h
  | .pbool _, h => by simp [hasOther] at h
  | .pnone, h => by simp [hasOther] at h
  | .pdatetime _, h => by simp [hasOther] at h
  | .pother t, _ => ⟨t, rfl⟩
  | .plist items, h => by
      rcases pySerializeList_error items (by simpa [hasOther] using h) with ⟨t, ht⟩
      exact ⟨t, by simp [pySerialize, ht]⟩
  | .pdict entries, h => by
      rcases pySerializeDict_error entries (by simpa [hasOther] using h) with ⟨t, ht⟩
      exact ⟨t, by simp [pySerialize, ht]⟩
theorem pySerializeList_error :
    ∀ l : PyValList, hasOtherList l = true →
      ∃ t, pySerializeList l = Except.error ("Type " ++ t ++ " not serializable")
  | .cons v tl, h => by
      by_cases hv : hasOther v = true
      · rcases pySerialize_error v hv with ⟨t, ht⟩
        exact ⟨t, by simp [pySerializeList, ht]⟩
      · have hv2 : hasOther v = false := Bool.eq_false_iff.mpr hv
        have htl : hasOtherList tl = true := by simpa [hasOtherList, hv2] using h
        rcases pySerializeList_error tl htl with ⟨t, ht⟩
        have hok := pySerialize_ok v hv2
        exact ⟨t, by simp [pySerializeList, hok, ht]⟩
theorem pySerializeDict_error :
    ∀ d : PyValDict, hasOtherDict d = true →
      ∃ t, pySerializeDict d = Except.error ("Type " ++ t ++ " not serializable")
  | .dcons k v tl, h => by
      by_cases hv : hasOther v = true
      · rcases pySerialize_error v hv with ⟨t, ht⟩
        exact ⟨t, by simp [pySerializeDict, ht]⟩
      · have hv2 : hasOther v = false := Bool.eq_false_iff.mpr hv
        have htl : hasOtherDict tl = true := by simpa [hasOtherDict, hv2] using h
        rcases pySerializeDict_error tl htl with ⟨t, ht⟩
        have hok := pySerialize_ok v hv2
        exact ⟨t, by simp [pySerializeDict, hok, ht]⟩
end

lemma mainEvents_countP (regions : List String) :
    (mainEvents regions).countP isSaveEvent = 1 := by
  rw [mainEvents, List.countP_append, List.countP_map]
  have h1 : List.countP (isSaveEvent ∘ fun p : String × ResEvent =>
      MainEvent.regionStep p.1 p.2) (runTrace regions) = 0 := by
    apply List.countP_eq_zero.mpr
    intro a _
    simp [isSaveEvent, Function.comp]
  rw [h1]
  rfl

lemma mainEvents_getLast (regions : List String) :
    (mainEvents regions).getLast? = some (MainEvent.saveJson regions) := by
  rw [mainEvents]
  exact List.getLast?_concat _

lemma mainEvents_dropLast (regions : List String) :
    ∀ e ∈ (mainEvents regions).dropLast, isSaveEvent e = false := by
  rw [mainEvents, List.dropLast_concat]
  intro e he
  rcases List.mem_map.mp he with ⟨p, _, hp⟩
  rw [← hp]
  rfl

/-- C8: after the region loop, main saves the accumulated raw data of
every processed region exactly once (the save is the last event and no
earlier event is a save), to output/aws_resources_raw_<timestamp>.json;
json.dump with the json_serializer hook maps every datetime value to its
isoformat (ISO 8601) string and raises TypeError for any value of another
non-JSON-serializable type. -/
theorem C8_persistence (regions : List String) (ts : String) :
    ((mainEvents regions).countP isSaveEvent = 1) ∧
    ((mainEvents regions).getLast? = some (MainEvent.saveJson regions)) ∧
    (∀ e ∈ (mainEvents regions).dropLast, isSaveEvent e = false) ∧
    (savedFileName ts = "output/aws_resources_raw_" ++ ts ++ ".json") ∧
    (∀ v : PyVal, hasOther v = false → pySerialize v = Except.ok (isoMapped v)) ∧
    (∀ v : PyVal, hasOther v = true →
      ∃ t, pySerialize v = Except.error ("Type " ++ t ++ " not serializable")) :=
  ⟨mainEvents_countP regions, mainEvents_getLast regions, mainEvents_dropLast regions,
   rfl, pySerialize_ok, pySerialize_error⟩

theorem C8_witness :
    ((mainEvents ["us-east-1"]).countP isSaveEvent = 1) ∧
    ((mainEvents ["us-east-1"]).getLast? = some (MainEvent.saveJson ["us-east-1"])) ∧
    (hasOther (PyVal.pdatetime "2025-02-18T09:00:00") = false) ∧
    (pySerialize (PyVal.pdatetime "2025-02-18T09:00:00") =
      Except.ok (isoMapped (PyVal.pdatetime "2025-02-18T09:00:00"))) ∧
    (hasOther (PyVal.pother "set") = true) ∧
    (∃ t, pySerialize (PyVal.pother "set") =
      Except.error ("Type " ++ t ++ " not serializable")) :=
  ⟨(C8_persistence ["us-east-1"] "t").1,
   (C8_persistence ["us-east-1"] "t").2.1,
   rfl,
   (C8_persistence ["us-east-1"] "t").2.2.2.2.1 (PyVal.pdatetime "2025-02-18T09:00:00") rfl,
   rfl,
   (C8_persistence ["us-east-1"] "t").2.2.2.2.2 (PyVal.pother "set") rfl⟩

end AWS
